import Mathlib

/-!
Shallow embedding of the video transcription tool (`transcriber.py` and
`audio_extractor.py`).

Python's dynamically typed values are modelled by the inductive `PyVal`;
`format_output` is translated statement by statement, with Python exceptions
modelled by `Except PyErr`.  The two workflow variants and the two CLI entry
points are modelled as functions over an explicit `World` state (files written,
directories created, temporary directories alive, stdout), with the behaviour
of the external adapters (yt-dlp, whisper) supplied by environment records.
`json.dumps(..., indent=2, ensure_ascii=False)` is modelled by `json_dumps`.
Machine floats are idealised as exact rationals; Python's `round` (round half
to even) is `round2`.
-/

/- ## Python values -/

/-- A Python value, as far as the transcription tool manipulates them:
`None`, ints, floats (idealised as rationals), strings, lists and
string-keyed dicts. -/
inductive PyVal where
  | pyNone : PyVal
  | pyInt : ℤ → PyVal
  | pyFloat : ℚ → PyVal
  | pyStr : String → PyVal
  | pyList : List PyVal → PyVal
  | pyDict : List (String × PyVal) → PyVal

/-- A Python dict with string keys, as an association list (keys distinct). -/
abbrev PyDict := List (String × PyVal)

/-- Exceptions that the formatter can raise on malformed input. -/
inductive PyErr where
  | typeError : PyErr
  | keyError : String → PyErr
  | attributeError : PyErr
deriving DecidableEq

/-- Dict lookup, `d[k]` / `k in d`. -/
def dictGet (k : String) : PyDict → Option PyVal
  | [] => none
  | (k', v) :: rest => if k' = k then some v else dictGet k rest

/-- Python subscription `v[k]` with a string key: dicts look the key up
(`KeyError` when absent), every other value raises `TypeError`. -/
def subscript (v : PyVal) (k : String) : Except PyErr PyVal :=
  match v with
  | .pyDict d =>
    match dictGet k d with
    | some x => .ok x
    | none => .error (.keyError k)
  | _ => .error .typeError

/-- Python iteration `for x in v`: lists yield their elements, strings their
characters (as one-character strings), dicts their keys; other values raise
`TypeError`. -/
def iterElems : PyVal → Except PyErr (List PyVal)
  | .pyList l => .ok l
  | .pyStr s => .ok (s.data.map fun c => PyVal.pyStr (String.singleton c))
  | .pyDict d => .ok (d.map fun e => PyVal.pyStr e.1)
  | _ => .error .typeError

/- ## Rounding (Python `round(x, 2)`) -/

/-- Round half to even of a rational to an integer, Python's `round`
convention. -/
def roundHalfEven (q : ℚ) : ℤ :=
  let n := ⌊q⌋
  let frac := q - n
  if frac < 1/2 then n
  else if 1/2 < frac then n + 1
  else if n % 2 = 0 then n else n + 1

/-- Embedding of Python `round(x, 2)` on the idealised rational floats. -/
def round2 (q : ℚ) : ℚ := (roundHalfEven (q * 100) : ℚ) / 100

/-- Python `round(x, 2)` on a value: floats are rounded, ints are returned
unchanged (Python returns the int itself), anything else raises `TypeError`. -/
def pyRound2 : PyVal → Except PyErr PyVal
  | .pyFloat q => .ok (.pyFloat (round2 q))
  | .pyInt n => .ok (.pyInt n)
  | _ => .error .typeError

/- ## Stripping (Python `str.strip()`) -/

/-- ASCII whitespace stripped by Python's `str.strip()`. -/
def isPySpace (c : Char) : Bool :=
  c = ' ' || c = '\t' || c = '\n' || c = '\r' || c = '\x0b' || c = '\x0c'

/-- Python `str.strip()`: remove leading and trailing whitespace. -/
def stripStr (s : String) : String :=
  String.mk (((s.data.dropWhile isPySpace).reverse.dropWhile isPySpace).reverse)

/-- Python `v.strip()`: only strings have the method, anything else raises
`AttributeError`. -/
def pyStrip : PyVal → Except PyErr PyVal
  | .pyStr s => .ok (.pyStr (stripStr s))
  | _ => .error .attributeError

/- ## The output formatter (`VideoTranscriber.format_output`) -/

/-- Body of the loop in `format_output`: build one formatted record
`{"timestamp": {"start": round(segment['start'], 2),
"end": round(segment['end'], 2)}, "sentence": segment['text'].strip()}`
from one segment, propagating any exception. -/
def formatSegment (segment : PyVal) : Except PyErr PyVal :=
  match subscript segment "start" with
  | .error e => .error e
  | .ok sv =>
    match pyRound2 sv with
    | .error e => .error e
    | .ok sr =>
      match subscript segment "end" with
      | .error e => .error e
      | .ok ev =>
        match pyRound2 ev with
        | .error e => .error e
        | .ok er =>
          match subscript segment "text" with
          | .error e => .error e
          | .ok tv =>
            match pyStrip tv with
            | .error e => .error e
            | .ok ts =>
              .ok (.pyDict
                [("timestamp", .pyDict [("start", sr), ("end", er)]),
                 ("sentence", ts)])

/-- The `for segment in transcription_result['segments']` loop of
`format_output`: records are appended in order; an exception discards the
incomplete list and propagates. -/
def formatSegments : List PyVal → Except PyErr (List PyVal)
  | [] => .ok []
  | seg :: rest =>
    match formatSegment seg with
    | .error e => .error e
    | .ok r =>
      match formatSegments rest with
      | .error e => .error e
      | .ok rs => .ok (r :: rs)

/-- Embedding of `VideoTranscriber.format_output`.  The argument is `None` or a dict (the
signature is `Dict[str, Any]`, and `transcribe_audio` returns a whisper result
dict or `None`).  `if not transcription_result or 'segments' not in
transcription_result: return []`, then the loop over the segments. -/
def format_output (transcription_result : Option PyDict) :
    Except PyErr (List PyVal) :=
  match transcription_result with
  | none => .ok []
  | some d =>
    if d.isEmpty then .ok []
    else
      match dictGet "segments" d with
      | none => .ok []
      | some sv =>
        match iterElems sv with
        | .error e => .error e
        | .ok elems => formatSegments elems

/-- Statement-level translation of `format_output` with the argument threaded
as the mutable store: the second component is the argument object as it stands
when the function returns.  The source never assigns into
`transcription_result` or its segments, so every return site passes the store
through unchanged. -/
def format_output_run (transcription_result : Option PyDict) :
    Except PyErr (List PyVal) × Option PyDict :=
  match transcription_result with
  | none => (.ok [], none)
  | some d =>
    if d.isEmpty then (.ok [], some d)
    else
      match dictGet "segments" d with
      | none => (.ok [], some d)
      | some sv =>
        match iterElems sv with
        | .error e => (.error e, some d)
        | .ok elems => (formatSegments elems, some d)

/- ## Whisper segments of the well-formed shape -/

/-- A well-formed transcription segment as produced by the external model:
start/end times in seconds and a text. -/
structure Segment where
  start : ℚ
  stop : ℚ
  text : String

/-- The canonical dict a well-formed segment presents to `format_output`. -/
def Segment.toPy (s : Segment) : PyVal :=
  .pyDict [("start", .pyFloat s.start), ("end", .pyFloat s.stop),
           ("text", .pyStr s.text)]

/-- The formatted record `format_output` builds for a well-formed segment. -/
def Segment.record (s : Segment) : PyVal :=
  .pyDict
    [("timestamp", .pyDict [("start", .pyFloat (round2 s.start)),
                            ("end", .pyFloat (round2 s.stop))]),
     ("sentence", .pyStr (stripStr s.text))]

/- ## Path bookkeeping (`os.path` on POSIX) -/

/-- Whether the first list is an initial run of the second. -/
def listLeads : List Char → List Char → Bool
  | [], _ => true
  | _ :: _, [] => false
  | a :: as, b :: bs => a = b && listLeads as bs

/-- Whether a string starts with a slash (an absolute POSIX path). -/
def startsSlash (s : String) : Bool :=
  match s.data with
  | [] => false
  | c :: _ => c = '/'

/-- Whether a string ends with a slash. -/
def endsSlash (s : String) : Bool :=
  match s.data.getLast? with
  | some c => c = '/'
  | none => false

/-- Embedding of `os.path.join(a, b)` for two components (POSIX). -/
def joinPath (a b : String) : String :=
  if startsSlash b then b
  else if a = "" ∨ endsSlash a then a ++ b
  else a ++ "/" ++ b

/-- Index of the last occurrence of a character in a list, if any. -/
def lastIdxOf (c : Char) : List Char → Option Nat
  | [] => none
  | x :: xs =>
    match lastIdxOf c xs with
    | some i => some (i + 1)
    | none => if x = c then some 0 else none

/-- Embedding of `os.path.basename(p)`: everything after the last slash. -/
def basename (p : String) : String :=
  match lastIdxOf '/' p.data with
  | some i => String.mk (p.data.drop (i + 1))
  | none => p

/-- Embedding of `os.path.dirname(p)` (POSIX): the leading part up to and
including the last slash, with trailing slashes stripped unless that leading
part is all slashes. -/
def dirname (p : String) : String :=
  match lastIdxOf '/' p.data with
  | none => ""
  | some i =>
    let head := p.data.take (i + 1)
    if head.all (fun c => c = '/') then String.mk head
    else String.mk ((head.reverse.dropWhile (fun c => c = '/')).reverse)

/-- Embedding of `os.path.splitext(p)` (POSIX): split at the last dot, unless the dot lies
before the last slash or the basename up to the dot consists only of dots
(leading-dot files such as `.bashrc` keep their name whole). -/
def splitext (p : String) : String × String :=
  let cs := p.data
  let sepIdx : ℤ :=
    match lastIdxOf '/' cs with
    | some i => (i : ℤ)
    | none => -1
  match lastIdxOf '.' cs with
  | none => (p, "")
  | some dotIdx =>
    if sepIdx < (dotIdx : ℤ) then
      if ((cs.drop (sepIdx + 1).toNat).take (dotIdx - (sepIdx + 1).toNat)).any
          (fun c => c ≠ '.') then
        (String.mk (cs.take dotIdx), String.mk (cs.drop dotIdx))
      else (p, "")
    else (p, "")

/- ## JSON serialisation (`json.dumps(obj, indent=2, ensure_ascii=False)`) -/

/-- A lowercase hexadecimal digit. -/
def hexDigit (n : Nat) : String :=
  if n < 10 then toString n
  else if n = 10 then "a" else if n = 11 then "b" else if n = 12 then "c"
  else if n = 13 then "d" else if n = 14 then "e" else "f"

/-- JSON escape for a control character (`< 0x20`). -/
def controlEscape (c : Char) : String :=
  if c.toNat = 10 then "\\n"
  else if c.toNat = 9 then "\\t"
  else if c.toNat = 13 then "\\r"
  else if c.toNat = 8 then "\\b"
  else if c.toNat = 12 then "\\f"
  else "\\u00" ++ hexDigit (c.toNat / 16) ++ hexDigit (c.toNat % 16)

/-- JSON escape of one character with `ensure_ascii=False`: only the quote,
the backslash and control characters are escaped; everything else, including
non-ASCII characters, is emitted literally. -/
def escapeChar (c : Char) : String :=
  if c = '"' then "\\\""
  else if c = '\\' then "\\\\"
  else if c.toNat < 32 then controlEscape c
  else String.singleton c

/-- JSON escape of a character list. -/
def escapeList : List Char → String
  | [] => ""
  | c :: cs => escapeChar c ++ escapeList cs

/-- JSON escape of a string. -/
def escapeStr (s : String) : String := escapeList s.data

/-- A JSON string literal. -/
def quoteStr (s : String) : String := "\"" ++ escapeStr s ++ "\""

/-- Python `repr` of a float whose exact value has at most two decimal
places (every timestamp serialised by this tool is the result of
`round(x, 2)`): the shortest decimal form, always keeping at least one
fractional digit.  Other denominators (unreachable here) fall back to the
rational's own textual form. -/
def renderFloat (q : ℚ) : String :=
  if 100 % q.den = 0 then
    let sgn := if q < 0 then "-" else ""
    let m : Nat := q.num.natAbs * (100 / q.den)
    let ip := m / 100
    let fr := m % 100
    sgn ++ toString ip ++
      (if fr = 0 then ".0"
       else if fr % 10 = 0 then "." ++ toString (fr / 10)
       else "." ++ (if fr < 10 then "0" ++ toString fr else toString fr))
  else toString q

/-- Padding for one indentation level: `indent * level` spaces. -/
def pad (ind lvl : Nat) : String := String.mk (List.replicate (ind * lvl) ' ')

mutual
/-- Embedding of `json.dumps(v, indent=ind, ensure_ascii=False)` at nesting
level `lvl`. -/
def dumpsVal (ind lvl : Nat) : PyVal → String
  | .pyNone => "null"
  | .pyInt n => toString n
  | .pyFloat q => renderFloat q
  | .pyStr s => quoteStr s
  | .pyList xs => dumpsArr ind lvl xs
  | .pyDict es => dumpsObj ind lvl es
termination_by v => (sizeOf v, 0)

/-- An indented JSON array: `[]` when empty, otherwise one element per line
indented one level deeper, closing bracket back at the parent level. -/
def dumpsArr (ind lvl : Nat) : List PyVal → String
  | [] => "[]"
  | x :: xs =>
    "[\n" ++ dumpsItems ind (lvl + 1) (x :: xs) ++ "\n" ++ pad ind lvl ++ "]"
termination_by xs => (sizeOf xs, 1)

/-- The comma-and-newline separated, indented elements of a JSON array. -/
def dumpsItems (ind lvl : Nat) : List PyVal → String
  | [] => ""
  | [x] => pad ind lvl ++ dumpsVal ind lvl x
  | x :: y :: ys =>
    pad ind lvl ++ dumpsVal ind lvl x ++ ",\n" ++ dumpsItems ind lvl (y :: ys)
termination_by xs => (sizeOf xs, 0)

/-- An indented JSON object, key separator `": "`. -/
def dumpsObj (ind lvl : Nat) : List (String × PyVal) → String
  | [] => "\x7b\x7d"
  | e :: es =>
    "\x7b\n" ++ dumpsEntries ind (lvl + 1) (e :: es) ++ "\n" ++ pad ind lvl ++
      "\x7d"
termination_by es => (sizeOf es, 1)

/-- The comma-and-newline separated, indented entries of a JSON object. -/
def dumpsEntries (ind lvl : Nat) : List (String × PyVal) → String
  | [] => ""
  | [(k, v)] => pad ind lvl ++ quoteStr k ++ ": " ++ dumpsVal ind lvl v
  | (k, v) :: f :: fs =>
    pad ind lvl ++ quoteStr k ++ ": " ++ dumpsVal ind lvl v ++ ",\n" ++
      dumpsEntries ind lvl (f :: fs)
termination_by es => (sizeOf es, 0)
end

/-- Embedding of `json.dumps(v, indent=ind, ensure_ascii=False)`. -/
def json_dumps (ind : Nat) (v : PyVal) : String := dumpsVal ind 0 v

/- ## The file-system/process world and the adapter environments -/

/-- A text file written with `open(path, 'w', encoding=...)`. -/
structure WrittenFile where
  path : String
  content : String
  encoding : String

/-- The observable state a workflow invocation manipulates: audio files on
disk, JSON files written, directories created, live temporary directories, and
the lines printed to stdout. -/
structure World where
  audioFiles : List String
  jsonFiles : List WrittenFile
  dirs : List String
  tempDirs : List String
  stdoutLines : List String

/-- The empty starting world. -/
def World.empty : World := ⟨[], [], [], [], []⟩

/-- Embedding of `os.makedirs(d, exist_ok=True)` guarded by `if d and not
os.path.exists(d)`. -/
def addDirIfMissing (d : String) (w : World) : World :=
  if d ≠ "" ∧ d ∉ w.dirs then { w with dirs := d :: w.dirs } else w

/-- Embedding of `VideoTranscriber.cleanup`: `if self.temp_dir and
os.path.exists(self.temp_dir): shutil.rmtree(self.temp_dir)` — remove the
directory and everything inside it. -/
def cleanup (tempDir : String) (w : World) : World :=
  if tempDir ≠ "" ∧ tempDir ∈ w.tempDirs then
    { w with
        tempDirs := w.tempDirs.erase tempDir,
        audioFiles := w.audioFiles.filter
          (fun p => !(listLeads (tempDir ++ "/").data p.data)) }
  else w

/-- Behaviour of one external `yt-dlp` invocation: whether the process exits
with code zero, and whether the expected audio file exists afterwards. -/
structure ExtractEnv where
  runOk : Bool
  produces : Bool

/-- Behaviour of the adapters during one `process_video` (variant A) run:
the name `tempfile.mkdtemp()` returns, whether a `KeyboardInterrupt` fires
during the `try` body, whether `yt-dlp` exits zero, the extension of the
`audio.*` file it leaves in the temporary directory (if any), and the result
of `transcribe_audio` (`none` models `None`: missing whisper library or a
transcription error). -/
structure EnvA where
  tempDirName : String
  interrupted : Bool
  downloadOk : Bool
  producedExt : Option String
  transcription : Option PyDict

/-- Embedding of `VideoTranscriber.extract_audio_to_file(video_url,
output_audio_path,
audio_format)`: ensure the output directory exists, run `yt-dlp` against the
`splitext` stem, then check for the expected `stem.format` file and rename it
to the requested path when the names differ.  Returns the success flag and the
world after the call. -/
def extract_audio_to_file (env : ExtractEnv) (output_audio_path : String)
    (audio_format : String) (w : World) : Bool × World :=
  let w1 := addDirIfMissing (dirname output_audio_path) w
  if env.runOk then
    let base := (splitext output_audio_path).1
    let expected := base ++ "." ++ audio_format
    let w2 :=
      if env.produces then { w1 with audioFiles := expected :: w1.audioFiles }
      else w1
    if expected ∈ w2.audioFiles then
      if expected = output_audio_path then (true, w2)
      else
        (true, { w2 with
          audioFiles := output_audio_path :: w2.audioFiles.erase expected })
    else (false, w2)
  else (false, w1)

/-- Embedding of `VideoTranscriber.process_video(video_url, output_file)`
(variant A):
make a temporary directory, download `audio.%(ext)s` into it, glob for the
produced file, transcribe, format, write the JSON to `output_file` or print
it, and remove the temporary directory in the `finally` block on every exit
path.  `.error ()` models a propagating `KeyboardInterrupt`. -/
def process_video (env : EnvA) (output_file : Option String) (w : World) :
    Except Unit Bool × World :=
  let t := env.tempDirName
  let w1 : World := { w with tempDirs := t :: w.tempDirs }
  if env.interrupted then (.error (), cleanup t w1)
  else if !env.downloadOk then (.ok false, cleanup t w1)
  else
    match env.producedExt with
    | none => (.ok false, cleanup t w1)
    | some ext =>
      let w2 : World :=
        { w1 with audioFiles := (t ++ "/audio." ++ ext) :: w1.audioFiles }
      match env.transcription with
      | none => (.ok false, cleanup t w2)
      | some d =>
        if d.isEmpty then (.ok false, cleanup t w2)
        else
          match format_output (some d) with
          | .error _ => (.ok false, cleanup t w2)
          | .ok recs =>
            let js := json_dumps 2 (.pyList recs)
            match output_file with
            | some p =>
              (.ok true, cleanup t
                { w2 with jsonFiles := w2.jsonFiles ++ [⟨p, js, "utf-8"⟩] })
            | none =>
              (.ok true, cleanup t
                { w2 with stdoutLines := w2.stdoutLines ++ [js] })

/-- Behaviour of the adapters during one `process_video_with_audio_save`
(variant B) run. -/
structure EnvB where
  interrupted : Bool
  extract : ExtractEnv
  transcription : Option PyDict

/-- Embedding of `VideoTranscriber.process_video_with_audio_save(video_url,
audio_output_path, transcription_output_file, audio_format)` (variant B):
place the audio under `cwd/audio/basename(audio_output_path)`, the JSON (when
requested) under `cwd/result/basename(transcription_output_file)`, extract,
transcribe the persisted file, format, then write or print the JSON.  No
temporary directory is involved. -/
def process_video_with_audio_save (env : EnvB) (cwd : String)
    (audio_output_path : String) (transcription_output_file : Option String)
    (audio_format : String) (w : World) : Except Unit Bool × World :=
  if env.interrupted then (.error (), w)
  else
    let audio_dir := joinPath cwd "audio"
    let w1 := addDirIfMissing audio_dir w
    let aPath := joinPath audio_dir (basename audio_output_path)
    let result_dir := joinPath cwd "result"
    let w2 :=
      match transcription_output_file with
      | some _ => addDirIfMissing result_dir w1
      | none => w1
    let tOut := transcription_output_file.map
      (fun f => joinPath result_dir (basename f))
    match extract_audio_to_file env.extract aPath audio_format w2 with
    | (false, w3) => (.ok false, w3)
    | (true, w3) =>
      if aPath ∈ w3.audioFiles then
        match env.transcription with
        | none => (.ok false, w3)
        | some d =>
          if d.isEmpty then (.ok false, w3)
          else
            match format_output (some d) with
            | .error _ => (.ok false, w3)
            | .ok recs =>
              let js := json_dumps 2 (.pyList recs)
              match tOut with
              | some p =>
                (.ok true,
                  { w3 with jsonFiles := w3.jsonFiles ++ [⟨p, js, "utf-8"⟩] })
              | none =>
                (.ok true,
                  { w3 with stdoutLines := w3.stdoutLines ++ [js] })
      else (.ok false, w3)

/- ## The CLI entry points -/

/-- Embedding of `transcriber.main()` after argument parsing: exit 1 when whisper or
`yt-dlp` is missing, dispatch on `--audio-output` to one of the two workflow
variants, exit 1 on a `False` result, and on `KeyboardInterrupt` (or any other
escaping exception) run `cleanup` again and exit 1.  Implicit exit code 0 on
success.  Returns the exit code and the final world. -/
def transcriber_main (whisperInstalled ytdlpAvailable : Bool)
    (audio_output output : Option String) (audio_format cwd : String)
    (envA : EnvA) (envB : EnvB) (w : World) : Nat × World :=
  if !whisperInstalled then (1, w)
  else if !ytdlpAvailable then (1, w)
  else
    match audio_output with
    | some a =>
      match process_video_with_audio_save envB cwd a output audio_format w with
      | (.ok true, w') => (0, w')
      | (.ok false, w') => (1, w')
      | (.error _, w') => (1, w')
    | none =>
      match process_video envA output w with
      | (.ok true, w') => (0, w')
      | (.ok false, w') => (1, w')
      | (.error _, w') => (1, cleanup envA.tempDirName w')

/-- Embedding of `audio_extractor.main()` after argument parsing: exit 1 when `yt-dlp` is
missing or on a `KeyboardInterrupt`/exception, run the extraction, print the
outcome, exit 0 on success and 1 on failure. -/
def audio_extractor_main (ytdlpAvailable interrupted : Bool)
    (env : ExtractEnv) (output audio_format : String) (w : World) :
    Nat × World :=
  if !ytdlpAvailable then (1, w)
  else if interrupted then (1, w)
  else
    match extract_audio_to_file env output audio_format w with
    | (true, w') =>
      (0, { w' with stdoutLines := w'.stdoutLines ++
              ["Audio successfully extracted to: " ++ output] })
    | (false, w') =>
      (1, { w' with stdoutLines := w'.stdoutLines ++
              ["Audio extraction failed. Check the logs for details."] })

/- ## Shape predicates used by the statements -/

/-- Property that `v` is a segment mapping carrying the well-formed fields of `s` (it may
carry further keys, as whisper segments do). -/
def SegShape (v : PyVal) (s : Segment) : Prop :=
  ∃ sd, v = PyVal.pyDict sd ∧
    dictGet "start" sd = some (.pyFloat s.start) ∧
    dictGet "end" sd = some (.pyFloat s.stop) ∧
    dictGet "text" sd = some (.pyStr s.text)

/-- The sentence string of a formatted record, when the record is a dict with
a string under `"sentence"`. -/
def sentenceOf (v : PyVal) : Option String :=
  match v with
  | .pyDict d =>
    match dictGet "sentence" d with
    | some (.pyStr s) => some s
    | _ => none
  | _ => none

/-- The file `extract_audio_to_file` expects `yt-dlp` to leave behind during
a variant-B run: the `splitext` stem of the target path plus the requested
format extension. -/
def expectedAudioPath (cwd a fmt : String) : String :=
  (splitext (joinPath (joinPath cwd "audio") (basename a))).1 ++ "." ++ fmt

/- ## Rounding lemmas -/

theorem roundHalfEven_low {q : ℚ} {n : ℤ} (h1 : (n : ℚ) ≤ q)
    (h2 : q - n < 1/2) : roundHalfEven q = n := by
  have hf : ⌊q⌋ = n := Int.floor_eq_iff.mpr ⟨h1, by linarith⟩
  unfold roundHalfEven
  simp only [hf]
  rw [if_pos h2]

theorem roundHalfEven_high {q : ℚ} {n : ℤ} (h1 : (n : ℚ) ≤ q)
    (h2 : 1/2 < q - n) (h3 : q < n + 1) : roundHalfEven q = n + 1 := by
  have hf : ⌊q⌋ = n := Int.floor_eq_iff.mpr ⟨h1, h3⟩
  unfold roundHalfEven
  simp only [hf]
  rw [if_neg (by linarith), if_pos h2]

theorem roundHalfEven_half_even {q : ℚ} {n : ℤ} (h1 : q - n = 1/2)
    (h2 : n % 2 = 0) : roundHalfEven q = n := by
  have hf : ⌊q⌋ = n := Int.floor_eq_iff.mpr ⟨by linarith, by linarith⟩
  unfold roundHalfEven
  simp only [hf]
  rw [if_neg (by rw [h1]; exact lt_irrefl _), if_neg (by rw [h1]; exact lt_irrefl _),
      if_pos h2]

theorem round2_1236 : round2 1.236 = 1.24 := by
  have h : roundHalfEven ((1.236 : ℚ) * 100) = 124 := by
    have := @roundHalfEven_high ((1.236 : ℚ) * 100) 123
      (by norm_num) (by norm_num) (by norm_num)
    simpa using this
  unfold round2
  rw [h]
  norm_num

theorem round2_1005 : round2 1.005 = 1.0 := by
  have h : roundHalfEven ((1.005 : ℚ) * 100) = 100 :=
    roundHalfEven_half_even (by norm_num) (by norm_num)
  unfold round2
  rw [h]
  norm_num

/- ## Formatter lemmas -/

theorem dictGet_isEmpty_false {k : String} {d : PyDict} {v : PyVal}
    (h : dictGet k d = some v) : d.isEmpty = false := by
  cases d with
  | nil => simp [dictGet] at h
  | cons e es => rfl

theorem formatSegment_wellFormed {v : PyVal} {s : Segment}
    (h : SegShape v s) : formatSegment v = .ok s.record := by
  obtain ⟨sd, rfl, h1, h2, h3⟩ := h
  simp [formatSegment, subscript, h1, h2, h3, pyRound2, pyStrip,
    Segment.record]

theorem formatSegments_wellFormed {l : List PyVal} {segs : List Segment}
    (h : List.Forall₂ SegShape l segs) :
    formatSegments l = .ok (segs.map Segment.record) := by
  induction h with
  | nil => rfl
  | cons hx _ ih =>
    rw [formatSegments, formatSegment_wellFormed hx, ih]
    rfl

theorem segShape_toPy (s : Segment) : SegShape (Segment.toPy s) s :=
  ⟨_, rfl, rfl, rfl, rfl⟩

theorem round2_intCast (n : ℤ) : round2 (n : ℚ) = n := by
  have h : roundHalfEven ((n : ℚ) * 100) = n * 100 := by
    refine roundHalfEven_low ?_ ?_
    · push_cast
      exact le_refl _
    · push_cast
      norm_num
  unfold round2
  rw [h]
  push_cast
  field_simp

/- ## Claim theorems: the formatter -/

/-- C1: for a transcription result that is a non-empty mapping carrying a
`segments` list of N well-formed segments, `format_output` returns exactly N
records, in segment order, the i-th being
`{timestamp: {start: round(start_i, 2), end: round(end_i, 2)},
sentence: strip(text_i)}`. -/
theorem c1_formatter_maps_segments (d : PyDict) (l : List PyVal)
    (segs : List Segment)
    (hseg : dictGet "segments" d = some (.pyList l))
    (hshape : List.Forall₂ SegShape l segs) :
    format_output (some d) = .ok (segs.map Segment.record) := by
  simp only [format_output, dictGet_isEmpty_false hseg, hseg, iterElems,
    Bool.false_eq_true, if_false]
  exact formatSegments_wellFormed hshape

/-- Witness for C1 at a concrete input, showing two records in order and the
text `"  hello world  "` trimmed to `"hello world"`. -/
theorem c1_formatter_maps_segments_witness :
    format_output (some [("segments", PyVal.pyList
      [Segment.toPy ⟨3, 5, "  hello world  "⟩, Segment.toPy ⟨5, 7, "x"⟩])]) =
    .ok [PyVal.pyDict
          [("timestamp", PyVal.pyDict [("start", PyVal.pyFloat 3),
                                       ("end", PyVal.pyFloat 5)]),
           ("sentence", PyVal.pyStr "hello world")],
         PyVal.pyDict
          [("timestamp", PyVal.pyDict [("start", PyVal.pyFloat 5),
                                       ("end", PyVal.pyFloat 7)]),
           ("sentence", PyVal.pyStr "x")]] := by
  have h := c1_formatter_maps_segments
    [("segments", PyVal.pyList
      [Segment.toPy ⟨3, 5, "  hello world  "⟩, Segment.toPy ⟨5, 7, "x"⟩])]
    [Segment.toPy ⟨3, 5, "  hello world  "⟩, Segment.toPy ⟨5, 7, "x"⟩]
    [⟨3, 5, "  hello world  "⟩, ⟨5, 7, "x"⟩] rfl
    (List.Forall₂.cons (segShape_toPy _)
      (List.Forall₂.cons (segShape_toPy _) List.Forall₂.nil))
  rw [h]
  have e3 : round2 3 = 3 := by have := round2_intCast 3; push_cast at this; exact this
  have e5 : round2 5 = 5 := by have := round2_intCast 5; push_cast at this; exact this
  have e7 : round2 7 = 7 := by have := round2_intCast 7; push_cast at this; exact this
  simp only [List.map, Segment.record, e3, e5, e7]
  rfl

/-- C2 counterexample: a malformed transcription result — a mapping whose
`segments` list holds a segment without the required keys — makes
`format_output` raise `KeyError('start')` instead of returning an empty
sequence. -/
theorem c2_malformed_raises :
    format_output (some [("segments", PyVal.pyList [PyVal.pyDict []])]) =
      .error (.keyError "start") := rfl

/-- C2 (amended): for input that is absent (`None`), an empty mapping, or a
mapping lacking a `segments` key, `format_output` returns an empty sequence
and raises no error, and the serialised output for the empty sequence is the
empty JSON array `[]`; a mapping whose `segments` value is malformed may raise
instead. -/
theorem c2_empty_inputs (d : PyDict) (h : dictGet "segments" d = none) :
    format_output none = .ok [] ∧
    format_output (some []) = .ok [] ∧
    format_output (some d) = .ok [] ∧
    json_dumps 2 (.pyList []) = "[]" := by
  refine ⟨rfl, rfl, ?_, ?_⟩
  · cases d with
    | nil => rfl
    | cons e es => simp [format_output, h]
  · simp [json_dumps, dumpsVal, dumpsArr]

/-- Witness for C2 (amended) at a concrete mapping without a `segments`
key. -/
theorem c2_empty_inputs_witness :
    format_output (some [("language", PyVal.pyStr "en")]) = .ok [] :=
  (c2_empty_inputs [("language", PyVal.pyStr "en")] rfl).2.2.1

/-- C7: the formatter's timestamp rounding follows round-half rules at two
decimal places: `1.236` rounds to `1.24`, and `1.005` rounds to `1.0` (one of
the two convention-dependent outcomes the spec allows), as visible in the
records `format_output` builds. -/
theorem c7_rounding :
    round2 1.236 = 1.24 ∧ (round2 1.005 = 1.0 ∨ round2 1.005 = 1.01) ∧
    format_output (some [("segments", PyVal.pyList
      [Segment.toPy ⟨1.236, 1.005, "s"⟩])]) =
    .ok [PyVal.pyDict
          [("timestamp", PyVal.pyDict [("start", PyVal.pyFloat 1.24),
                                       ("end", PyVal.pyFloat 1.0)]),
           ("sentence", PyVal.pyStr "s")]] := by
  refine ⟨round2_1236, Or.inl round2_1005, ?_⟩
  have h := formatSegments_wellFormed
    (List.Forall₂.cons (segShape_toPy ⟨1.236, 1.005, "s"⟩) List.Forall₂.nil)
  have hseg : dictGet "segments"
      [("segments", PyVal.pyList [Segment.toPy ⟨1.236, 1.005, "s"⟩])] =
      some (.pyList [Segment.toPy ⟨1.236, 1.005, "s"⟩]) := rfl
  simp only [format_output, dictGet_isEmpty_false hseg, hseg, iterElems,
    Bool.false_eq_true, if_false]
  rw [h]
  simp only [List.map, Segment.record, round2_1236, round2_1005]
  rfl

/-- C9: `format_output` does not mutate its input: threading the argument as
the mutable store through the statement-by-statement translation returns the
store unchanged alongside the same records, for every input. -/
theorem c9_no_mutation (r : Option PyDict) :
    format_output_run r = (format_output r, r) := by
  cases r with
  | none => rfl
  | some d =>
    simp only [format_output_run, format_output]
    rcases hd : d.isEmpty <;> simp only [hd, Bool.false_eq_true, if_false, if_true]
    rcases hs : dictGet "segments" d with _ | sv <;> simp only [hs]
    rcases he : iterElems sv with e | elems <;> simp only [he]

/- ## World bookkeeping lemmas -/

theorem addDirIfMissing_audioFiles (d : String) (w : World) :
    (addDirIfMissing d w).audioFiles = w.audioFiles := by
  unfold addDirIfMissing; split <;> rfl

theorem addDirIfMissing_jsonFiles (d : String) (w : World) :
    (addDirIfMissing d w).jsonFiles = w.jsonFiles := by
  unfold addDirIfMissing; split <;> rfl

theorem addDirIfMissing_stdoutLines (d : String) (w : World) :
    (addDirIfMissing d w).stdoutLines = w.stdoutLines := by
  unfold addDirIfMissing; split <;> rfl

theorem cleanup_jsonFiles (t : String) (w : World) :
    (cleanup t w).jsonFiles = w.jsonFiles := by
  unfold cleanup; split <;> rfl

theorem cleanup_stdoutLines (t : String) (w : World) :
    (cleanup t w).stdoutLines = w.stdoutLines := by
  unfold cleanup; split <;> rfl

theorem cleanup_tempDirs (t : String) (w : World) :
    (cleanup t w).tempDirs =
      if t ≠ "" ∧ t ∈ w.tempDirs then w.tempDirs.erase t else w.tempDirs := by
  unfold cleanup
  split
  next h => simp [h]
  next h => simp [h]

/- ## C3: the temporary directory is gone on every exit path -/

/-- C3: every `process_video` (variant A) invocation removes the temporary
directory it created on every exit path — success, adapter failure, a raised
exception, or a `KeyboardInterrupt` — so the directory no longer exists when
control returns.  (`mkdtemp` returns a fresh, non-empty name.) -/
theorem c3_tempdir_removed (env : EnvA) (out : Option String) (w : World)
    (hfresh : env.tempDirName ∉ w.tempDirs) (hne : env.tempDirName ≠ "") :
    env.tempDirName ∉ (process_video env out w).2.tempDirs := by
  have key : ∀ w' : World, w'.tempDirs = env.tempDirName :: w.tempDirs →
      env.tempDirName ∉ (cleanup env.tempDirName w').tempDirs := by
    intro w' hw'
    rw [cleanup_tempDirs, hw']
    rw [if_pos ⟨hne, List.mem_cons_self _ _⟩, List.erase_cons_head]
    exact hfresh
  unfold process_video
  repeat' split
  all_goals exact key _ rfl

/-- Witness for C3 at a concrete run (adapters succeeding, output printed). -/
theorem c3_tempdir_removed_witness :
    "/tmp/tmpabc123" ∉
      (process_video
        ⟨"/tmp/tmpabc123", false, true, some "wav",
         some [("segments", PyVal.pyList [])]⟩
        none World.empty).2.tempDirs :=
  c3_tempdir_removed _ none World.empty (List.not_mem_nil _) (by decide)

/- ## Extraction lemmas -/

theorem extract_jsonFiles (env : ExtractEnv) (p fmt : String) (w : World) :
    (extract_audio_to_file env p fmt w).2.jsonFiles = w.jsonFiles := by
  unfold extract_audio_to_file
  repeat' split
  all_goals simp [addDirIfMissing_jsonFiles, apply_ite, ite_self]

theorem extract_stdoutLines (env : ExtractEnv) (p fmt : String) (w : World) :
    (extract_audio_to_file env p fmt w).2.stdoutLines = w.stdoutLines := by
  unfold extract_audio_to_file
  repeat' split
  all_goals simp [addDirIfMissing_stdoutLines, apply_ite, ite_self]

set_option maxRecDepth 4096 in
theorem extract_ok_mem {env : ExtractEnv} {p fmt : String} {w w' : World}
    (h : extract_audio_to_file env p fmt w = (true, w')) :
    p ∈ w'.audioFiles := by
  obtain ⟨ro, pr⟩ := env
  unfold extract_audio_to_file at h
  cases ro <;> cases pr <;> dsimp only at h <;> repeat' split at h
  all_goals try injection h with h1 h2
  all_goals try subst w'
  all_goals first
    | contradiction
    | simp_all [List.mem_cons]

theorem extract_fails {env : ExtractEnv} (p fmt : String) (w : World)
    (hfail : env.runOk = false ∨
      (env.produces = false ∧ (splitext p).1 ++ "." ++ fmt ∉ w.audioFiles)) :
    (extract_audio_to_file env p fmt w).1 = false := by
  obtain ⟨ro, pr⟩ := env
  simp only at hfail
  rcases hfail with rfl | ⟨rfl, habs⟩
  · rfl
  · cases ro
    · rfl
    · unfold extract_audio_to_file
      dsimp only
      simp only [Bool.false_eq_true, if_false, addDirIfMissing_audioFiles]
      rw [if_neg habs]
      simp

/- ## C4: adapter failures fail the workflow with no JSON written -/

/-- C4: in both workflow variants, every adapter failure — non-zero `yt-dlp`
exit, expected audio file absent after the call, or the transcription adapter
returning no result (including a missing whisper library) — makes the workflow
return `False`, and no JSON output file is written. -/
theorem c4_adapter_failure :
    (∀ (env : EnvA) (out : Option String) (w : World),
        env.interrupted = false →
        (env.downloadOk = false ∨ env.producedExt = none ∨
          env.transcription = none) →
        (process_video env out w).1 = .ok false ∧
        (process_video env out w).2.jsonFiles = w.jsonFiles) ∧
    (∀ (env : EnvB) (cwd a : String) (tOut : Option String) (fmt : String)
        (w : World),
        env.interrupted = false →
        (env.extract.runOk = false ∨
          (env.extract.produces = false ∧
            expectedAudioPath cwd a fmt ∉ w.audioFiles) ∨
          env.transcription = none) →
        (process_video_with_audio_save env cwd a tOut fmt w).1 = .ok false ∧
        (process_video_with_audio_save env cwd a tOut fmt w).2.jsonFiles =
          w.jsonFiles) := by
  constructor
  · intro env out w hi hfail
    obtain ⟨t, intr, dl, pe, tr⟩ := env
    simp only at hi hfail
    subst hi
    cases dl
    · exact ⟨by simp [process_video], by simp [process_video, cleanup_jsonFiles]⟩
    · rcases pe with _ | ext
      · exact ⟨by simp [process_video], by simp [process_video, cleanup_jsonFiles]⟩
      · rcases tr with _ | d
        · exact ⟨by simp [process_video], by simp [process_video, cleanup_jsonFiles]⟩
        · simp at hfail
  · intro env cwd a tOut fmt w hi hfail
    obtain ⟨intr, ex, tr⟩ := env
    simp only at hi hfail
    subst hi
    unfold process_video_with_audio_save
    dsimp only
    simp only [Bool.false_eq_true, if_false]
    rcases tOut with _ | f
    · dsimp only
      rcases hx : extract_audio_to_file ex
          (joinPath (joinPath cwd "audio") (basename a)) fmt
          (addDirIfMissing (joinPath cwd "audio") w) with ⟨b, w3⟩
      have hj3 : w3.jsonFiles = w.jsonFiles := by
        have hj := extract_jsonFiles ex
          (joinPath (joinPath cwd "audio") (basename a)) fmt
          (addDirIfMissing (joinPath cwd "audio") w)
        rw [hx] at hj
        simpa [addDirIfMissing_jsonFiles] using hj
      cases b
      · simp only [hx]
        exact ⟨trivial, hj3⟩
      · rcases hfail with h1 | ⟨h2a, h2b⟩ | rfl
        · have hf := @extract_fails ex
            (joinPath (joinPath cwd "audio") (basename a)) fmt
            (addDirIfMissing (joinPath cwd "audio") w) (Or.inl h1)
          rw [hx] at hf
          simp at hf
        · have hf := @extract_fails ex
            (joinPath (joinPath cwd "audio") (basename a)) fmt
            (addDirIfMissing (joinPath cwd "audio") w)
            (Or.inr ⟨h2a, by
              rw [addDirIfMissing_audioFiles]; exact h2b⟩)
          rw [hx] at hf
          simp at hf
        · simp only [hx]
          split
          · exact ⟨rfl, hj3⟩
          · exact ⟨rfl, hj3⟩
    · dsimp only
      rcases hx : extract_audio_to_file ex
          (joinPath (joinPath cwd "audio") (basename a)) fmt
          (addDirIfMissing (joinPath cwd "result")
            (addDirIfMissing (joinPath cwd "audio") w)) with ⟨b, w3⟩
      have hj3 : w3.jsonFiles = w.jsonFiles := by
        have hj := extract_jsonFiles ex
          (joinPath (joinPath cwd "audio") (basename a)) fmt
          (addDirIfMissing (joinPath cwd "result")
            (addDirIfMissing (joinPath cwd "audio") w))
        rw [hx] at hj
        simpa [addDirIfMissing_jsonFiles] using hj
      cases b
      · simp only [hx]
        exact ⟨trivial, hj3⟩
      · rcases hfail with h1 | ⟨h2a, h2b⟩ | rfl
        · have hf := @extract_fails ex
            (joinPath (joinPath cwd "audio") (basename a)) fmt
            (addDirIfMissing (joinPath cwd "result")
              (addDirIfMissing (joinPath cwd "audio") w)) (Or.inl h1)
          rw [hx] at hf
          simp at hf
        · have hf := @extract_fails ex
            (joinPath (joinPath cwd "audio") (basename a)) fmt
            (addDirIfMissing (joinPath cwd "result")
              (addDirIfMissing (joinPath cwd "audio") w))
            (Or.inr ⟨h2a, by
              rw [addDirIfMissing_audioFiles, addDirIfMissing_audioFiles]
              exact h2b⟩)
          rw [hx] at hf
          simp at hf
        · simp only [hx]
          split
          · exact ⟨rfl, hj3⟩
          · exact ⟨rfl, hj3⟩

/-- Witness for C4: a failed download (non-zero `yt-dlp` exit) in variant A
returns `False` and writes no JSON file. -/
theorem c4_adapter_failure_witness :
    (process_video ⟨"/tmp/t1", false, false, none, none⟩ (some "out.json")
        World.empty).1 = .ok false ∧
    (process_video ⟨"/tmp/t1", false, false, none, none⟩ (some "out.json")
        World.empty).2.jsonFiles = World.empty.jsonFiles :=
  c4_adapter_failure.1 ⟨"/tmp/t1", false, false, none, none⟩
    (some "out.json") World.empty rfl (Or.inl rfl)

/- ## Variant B success inversion -/

theorem procB_ok_inv {env : EnvB} {cwd a : String} {tOut : Option String}
    {fmt : String} {w w' : World}
    (h : process_video_with_audio_save env cwd a tOut fmt w = (.ok true, w')) :
    joinPath (joinPath cwd "audio") (basename a) ∈ w'.audioFiles ∧
    ∃ d recs, env.transcription = some d ∧
      format_output (some d) = .ok recs ∧
      (∀ f, tOut = some f →
        w'.jsonFiles = w.jsonFiles ++
          [⟨joinPath (joinPath cwd "result") (basename f),
            json_dumps 2 (.pyList recs), "utf-8"⟩] ∧
        w'.stdoutLines = w.stdoutLines) ∧
      (tOut = none →
        w'.stdoutLines = w.stdoutLines ++ [json_dumps 2 (.pyList recs)] ∧
        w'.jsonFiles = w.jsonFiles) := by
  obtain ⟨intr, ex, tr⟩ := env
  cases intr
  case true => simp [process_video_with_audio_save] at h
  case false =>
  unfold process_video_with_audio_save at h
  dsimp only at h
  simp only [Bool.false_eq_true, if_false] at h
  rcases tOut with _ | f
  · dsimp only at h
    rcases hx : extract_audio_to_file ex
        (joinPath (joinPath cwd "audio") (basename a)) fmt
        (addDirIfMissing (joinPath cwd "audio") w) with ⟨b, w3⟩
    rw [hx] at h
    have hj3 : w3.jsonFiles = w.jsonFiles := by
      have hj := extract_jsonFiles ex
        (joinPath (joinPath cwd "audio") (basename a)) fmt
        (addDirIfMissing (joinPath cwd "audio") w)
      rw [hx] at hj
      simpa [addDirIfMissing_jsonFiles] using hj
    have hs3 : w3.stdoutLines = w.stdoutLines := by
      have hs := extract_stdoutLines ex
        (joinPath (joinPath cwd "audio") (basename a)) fmt
        (addDirIfMissing (joinPath cwd "audio") w)
      rw [hx] at hs
      simpa [addDirIfMissing_stdoutLines] using hs
    cases b
    · simp at h
    · dsimp only at h
      split at h
      case isFalse => simp at h
      case isTrue hmem =>
        rcases tr with _ | d
        · simp at h
        · cases d with
          | nil => simp at h
          | cons e es =>
            simp only [List.isEmpty_cons, Bool.false_eq_true, if_false] at h
            rcases hfo : format_output (some (e :: es)) with err | recs <;>
              rw [hfo] at h
            · simp at h
            · dsimp only at h
              injection h with h1 h2
              subst h2
              refine ⟨hmem, e :: es, recs, rfl, hfo, ?_, ?_⟩
              · intro f hf
                cases hf
              · intro _
                exact ⟨by rw [← hs3], hj3⟩
  · dsimp only at h
    rcases hx : extract_audio_to_file ex
        (joinPath (joinPath cwd "audio") (basename a)) fmt
        (addDirIfMissing (joinPath cwd "result")
          (addDirIfMissing (joinPath cwd "audio") w)) with ⟨b, w3⟩
    rw [hx] at h
    have hj3 : w3.jsonFiles = w.jsonFiles := by
      have hj := extract_jsonFiles ex
        (joinPath (joinPath cwd "audio") (basename a)) fmt
        (addDirIfMissing (joinPath cwd "result")
          (addDirIfMissing (joinPath cwd "audio") w))
      rw [hx] at hj
      simpa [addDirIfMissing_jsonFiles] using hj
    have hs3 : w3.stdoutLines = w.stdoutLines := by
      have hs := extract_stdoutLines ex
        (joinPath (joinPath cwd "audio") (basename a)) fmt
        (addDirIfMissing (joinPath cwd "result")
          (addDirIfMissing (joinPath cwd "audio") w))
      rw [hx] at hs
      simpa [addDirIfMissing_stdoutLines] using hs
    cases b
    · simp at h
    · dsimp only at h
      split at h
      case isFalse => simp at h
      case isTrue hmem =>
        rcases tr with _ | d
        · simp at h
        · cases d with
          | nil => simp at h
          | cons e es =>
            simp only [List.isEmpty_cons, Bool.false_eq_true, if_false] at h
            rcases hfo : format_output (some (e :: es)) with err | recs <;>
              rw [hfo] at h
            · simp at h
            · dsimp only at h
              injection h with h1 h2
              subst h2
              refine ⟨hmem, e :: es, recs, rfl, hfo, ?_, ?_⟩
              · intro f' hf'
                injection hf' with hff
                subst hff
                exact ⟨by rw [← hj3], hs3⟩
              · intro hf
                cases hf

/- ## C5 and C10: variant B output locations -/

/-- C5: every successful variant-B run with audio-output path `"x.wav"`
persists the audio under `cwd/audio/x.wav`; when a JSON output name is given
the JSON lands under `cwd/result/<basename>`, and when none is given the JSON
is printed to standard output instead (and no JSON file is written). -/
theorem c5_variant_b_outputs (env : EnvB) (cwd : String)
    (tOut : Option String) (fmt : String) (w w' : World)
    (h : process_video_with_audio_save env cwd "x.wav" tOut fmt w =
      (.ok true, w')) :
    joinPath (joinPath cwd "audio") "x.wav" ∈ w'.audioFiles ∧
    (∀ f, tOut = some f → ∃ content,
      WrittenFile.mk (joinPath (joinPath cwd "result") (basename f)) content
        "utf-8" ∈ w'.jsonFiles) ∧
    (tOut = none → ∃ js, w'.stdoutLines = w.stdoutLines ++ [js] ∧
      w'.jsonFiles = w.jsonFiles) := by
  obtain ⟨hmem, d, recs, -, -, hsome, hnone⟩ := procB_ok_inv h
  have hb : basename "x.wav" = "x.wav" := rfl
  rw [hb] at hmem
  refine ⟨hmem, ?_, ?_⟩
  · intro f hf
    obtain ⟨hjson, -⟩ := hsome f hf
    exact ⟨json_dumps 2 (.pyList recs), by rw [hjson]; simp⟩
  · intro hf
    obtain ⟨hstdout, hjson⟩ := hnone hf
    exact ⟨json_dumps 2 (.pyList recs), hstdout, hjson⟩

/-- Witness for C5: a concrete successful variant-B run (JSON printed to
stdout) persists the audio at `./audio/x.wav`. -/
theorem c5_variant_b_outputs_witness :
    joinPath (joinPath "." "audio") "x.wav" ∈
      (process_video_with_audio_save
        ⟨false, ⟨true, true⟩, some [("segments", PyVal.pyList [])]⟩ "."
        "x.wav" none "wav" World.empty).2.audioFiles :=
  (c5_variant_b_outputs ⟨false, ⟨true, true⟩,
      some [("segments", PyVal.pyList [])]⟩ "." none "wav" World.empty _
    rfl).1

/-- C10: variant B uses only the basenames of the user-supplied paths: for
every audio-output argument, any directory components are discarded and the
audio is persisted at `cwd/audio/basename(arg)`; likewise the JSON goes to
`cwd/result/basename(json-arg)` — and that is the only JSON file written. -/
theorem c10_basename_only (env : EnvB) (cwd a f fmt : String) (w w' : World)
    (h : process_video_with_audio_save env cwd a (some f) fmt w =
      (.ok true, w')) :
    joinPath (joinPath cwd "audio") (basename a) ∈ w'.audioFiles ∧
    ∃ content, w'.jsonFiles = w.jsonFiles ++
      [⟨joinPath (joinPath cwd "result") (basename f), content, "utf-8"⟩] := by
  obtain ⟨hmem, d, recs, -, -, hsome, -⟩ := procB_ok_inv h
  obtain ⟨hjson, -⟩ := hsome f rfl
  exact ⟨hmem, json_dumps 2 (.pyList recs), hjson⟩

/-- Witness for C10: with audio argument `/tmp/sub/x.wav` and JSON argument
`/deep/dir/out.json`, the outputs land at `./audio/x.wav` and
`./result/out.json`. -/
theorem c10_basename_only_witness :
    joinPath (joinPath "." "audio") (basename "/tmp/sub/x.wav") ∈
      (process_video_with_audio_save
        ⟨false, ⟨true, true⟩, some [("segments", PyVal.pyList [])]⟩ "."
        "/tmp/sub/x.wav" (some "/deep/dir/out.json") "wav"
        World.empty).2.audioFiles ∧
    ∃ content,
      (process_video_with_audio_save
        ⟨false, ⟨true, true⟩, some [("segments", PyVal.pyList [])]⟩ "."
        "/tmp/sub/x.wav" (some "/deep/dir/out.json") "wav"
        World.empty).2.jsonFiles =
      World.empty.jsonFiles ++
        [⟨joinPath (joinPath "." "result") (basename "/deep/dir/out.json"),
          content, "utf-8"⟩] :=
  c10_basename_only ⟨false, ⟨true, true⟩,
      some [("segments", PyVal.pyList [])]⟩ "." "/tmp/sub/x.wav"
    "/deep/dir/out.json" "wav" World.empty _ rfl

/- ## C8: CLI exit codes -/

/-- C8: both CLI entry points exit with code 0 exactly on success and with
code 1 on any failure (missing dependency, workflow failure, interrupt,
escaping exception); no other exit code occurs. -/
theorem c8_exit_codes :
    (∀ (wi yt : Bool) (ao out : Option String) (fmt cwd : String)
        (envA : EnvA) (envB : EnvB) (w : World),
        ((transcriber_main wi yt ao out fmt cwd envA envB w).1 = 0 ∨
         (transcriber_main wi yt ao out fmt cwd envA envB w).1 = 1) ∧
        ((transcriber_main wi yt ao out fmt cwd envA envB w).1 = 0 ↔
          (wi = true ∧ yt = true ∧
            match ao with
            | some a =>
              (process_video_with_audio_save envB cwd a out fmt w).1 =
                .ok true
            | none => (process_video envA out w).1 = .ok true))) ∧
    (∀ (yt intr : Bool) (env : ExtractEnv) (outp fmt : String) (w : World),
        ((audio_extractor_main yt intr env outp fmt w).1 = 0 ∨
         (audio_extractor_main yt intr env outp fmt w).1 = 1) ∧
        ((audio_extractor_main yt intr env outp fmt w).1 = 0 ↔
          (yt = true ∧ intr = false ∧
            (extract_audio_to_file env outp fmt w).1 = true))) := by
  constructor
  · intro wi yt ao out fmt cwd envA envB w
    cases wi
    · simp [transcriber_main]
    · cases yt
      · simp [transcriber_main]
      · rcases ao with _ | a
        · rcases hx : process_video envA out w with ⟨r, w'⟩
          rcases r with u | b
          · simp [transcriber_main, hx]
          · cases b <;> simp [transcriber_main, hx]
        · rcases hx : process_video_with_audio_save envB cwd a out fmt w
            with ⟨r, w'⟩
          rcases r with u | b
          · simp [transcriber_main, hx]
          · cases b <;> simp [transcriber_main, hx]
  · intro yt intr env outp fmt w
    cases yt
    · simp [audio_extractor_main]
    · cases intr
      · rcases hx : extract_audio_to_file env outp fmt w with ⟨b, w'⟩
        cases b <;> simp [audio_extractor_main, hx]
      · simp [audio_extractor_main]

/- ## Variant A success inversion -/

theorem procA_ok_inv {env : EnvA} {out : Option String} {w w' : World}
    (h : process_video env out w = (.ok true, w')) :
    ∃ d recs, env.transcription = some d ∧
      format_output (some d) = .ok recs ∧
      (∀ p, out = some p →
        w'.jsonFiles = w.jsonFiles ++
          [⟨p, json_dumps 2 (.pyList recs), "utf-8"⟩]) ∧
      (out = none →
        w'.jsonFiles = w.jsonFiles ∧
        w'.stdoutLines = w.stdoutLines ++ [json_dumps 2 (.pyList recs)]) := by
  obtain ⟨t, intr, dl, pe, tr⟩ := env
  cases intr
  case true => simp [process_video] at h
  case false =>
  cases dl
  case false => simp [process_video] at h
  case true =>
  rcases pe with _ | ext
  · simp [process_video] at h
  · rcases tr with _ | d
    · simp [process_video] at h
    · cases d with
      | nil => simp [process_video] at h
      | cons e es =>
        unfold process_video at h
        dsimp only at h
        simp only [List.isEmpty_cons, Bool.false_eq_true, if_false,
          Bool.not_true] at h
        rcases hfo : format_output (some (e :: es)) with err | recs <;>
          rw [hfo] at h
        · simp at h
        · rcases out with _ | p <;> dsimp only at h
          · injection h with h1 h2
            subst h2
            refine ⟨e :: es, recs, rfl, hfo, ?_, ?_⟩
            · intro p hp
              cases hp
            · intro _
              constructor
              · rw [cleanup_jsonFiles]
              · rw [cleanup_stdoutLines]
          · injection h with h1 h2
            subst h2
            refine ⟨e :: es, recs, rfl, hfo, ?_, ?_⟩
            · intro p' hp'
              injection hp' with hpp
              subst hpp
              rw [cleanup_jsonFiles]
            · intro hp
              cases hp

/- ## Non-ASCII preservation through the serialiser -/

theorem strDataAppend (a b : String) : (a ++ b).data = a.data ++ b.data := rfl

theorem mem_data_append_l {c : Char} {a : String} (b : String)
    (h : c ∈ a.data) : c ∈ (a ++ b).data := by
  rw [strDataAppend]
  exact List.mem_append.mpr (Or.inl h)

theorem mem_data_append_r {c : Char} (a : String) {b : String}
    (h : c ∈ b.data) : c ∈ (a ++ b).data := by
  rw [strDataAppend]
  exact List.mem_append.mpr (Or.inr h)

theorem escapeChar_nonascii {c : Char} (h : 128 ≤ c.toNat) :
    escapeChar c = String.singleton c := by
  unfold escapeChar
  rw [if_neg (fun e => by subst e; exact absurd h (by decide)),
      if_neg (fun e => by subst e; exact absurd h (by decide)),
      if_neg (by omega)]

theorem mem_escapeList {c : Char} (h : 128 ≤ c.toNat) :
    ∀ cs : List Char, c ∈ cs → c ∈ (escapeList cs).data := by
  intro cs hm
  induction cs with
  | nil => cases hm
  | cons x xs ih =>
    rw [escapeList]
    rcases List.mem_cons.mp hm with rfl | hm'
    · rw [escapeChar_nonascii h]
      exact mem_data_append_l _ (by simp [String.singleton])
    · exact mem_data_append_r _ (ih hm')

theorem mem_quoteStr {c : Char} {s : String} (h : 128 ≤ c.toNat)
    (hm : c ∈ s.data) : c ∈ (quoteStr s).data := by
  unfold quoteStr escapeStr
  exact mem_data_append_l _ (mem_data_append_r _ (mem_escapeList h s.data hm))

theorem mem_dumpsItems {c : Char} (ind lvl : Nat) :
    ∀ (xs : List PyVal) (v : PyVal), v ∈ xs →
      c ∈ (dumpsVal ind lvl v).data → c ∈ (dumpsItems ind lvl xs).data := by
  intro xs
  induction xs with
  | nil => intro v hv; cases hv
  | cons x ys ih =>
    intro v hv hc
    cases ys with
    | nil =>
      rcases List.mem_singleton.mp hv with rfl
      rw [dumpsItems]
      exact mem_data_append_r _ hc
    | cons y zs =>
      rw [dumpsItems]
      rcases List.mem_cons.mp hv with rfl | hv'
      · exact mem_data_append_l _
          (mem_data_append_l _ (mem_data_append_r _ hc))
      · exact mem_data_append_r _ (ih v hv' hc)

theorem mem_dumpsEntries {c : Char} (ind lvl : Nat) :
    ∀ (es : List (String × PyVal)) (k : String) (v : PyVal),
      dictGet k es = some v → c ∈ (dumpsVal ind lvl v).data →
      c ∈ (dumpsEntries ind lvl es).data := by
  intro es
  induction es with
  | nil => intro k v hk; cases hk
  | cons e fs ih =>
    intro k v hk hc
    obtain ⟨k', v'⟩ := e
    rw [dictGet] at hk
    cases fs with
    | nil =>
      rw [dumpsEntries]
      split at hk
      · injection hk with hv'
        subst hv'
        exact mem_data_append_r _ hc
      · cases hk
    | cons f gs =>
      rw [dumpsEntries]
      split at hk
      · injection hk with hv'
        subst hv'
        exact mem_data_append_l _
          (mem_data_append_l _ (mem_data_append_r _ hc))
      · exact mem_data_append_r _ (ih k v hk hc)

theorem mem_dumpsObj {c : Char} (ind lvl : Nat)
    (es : List (String × PyVal)) (k : String) (v : PyVal)
    (hk : dictGet k es = some v)
    (hc : c ∈ (dumpsVal ind (lvl + 1) v).data) :
    c ∈ (dumpsObj ind lvl es).data := by
  cases es with
  | nil => cases hk
  | cons e fs =>
    rw [dumpsObj]
    exact mem_data_append_l _ (mem_data_append_l _ (mem_data_append_l _
      (mem_data_append_r _ (mem_dumpsEntries ind (lvl + 1) (e :: fs) k v hk hc))))

theorem mem_dumps_sentence {c : Char} (ind lvl : Nat) (recs : List PyVal)
    (rec : PyVal) (s : String) (hmem : rec ∈ recs)
    (hs : sentenceOf rec = some s) (hc : c ∈ s.data)
    (hval : 128 ≤ c.toNat) :
    c ∈ (dumpsVal ind lvl (.pyList recs)).data := by
  obtain ⟨d, rfl, hd⟩ :
      ∃ d, rec = .pyDict d ∧ dictGet "sentence" d = some (.pyStr s) := by
    unfold sentenceOf at hs
    cases rec <;> dsimp only at hs <;> try cases hs
    next d =>
      rcases hg : dictGet "sentence" d with _ | v <;> rw [hg] at hs
      · cases hs
      · cases v <;> dsimp only at hs <;> try cases hs
        exact ⟨d, rfl, hg⟩
  have hsent : c ∈ (dumpsVal ind (lvl + 2) (.pyStr s)).data := by
    rw [dumpsVal]
    exact mem_quoteStr hval hc
  have hrec : c ∈ (dumpsVal ind (lvl + 1) (.pyDict d)).data := by
    rw [dumpsVal]
    exact mem_dumpsObj ind (lvl + 1) d "sentence" _ hd hsent
  cases recs with
  | nil => cases hmem
  | cons x xs =>
    rw [dumpsVal, dumpsArr]
    exact mem_data_append_l _ (mem_data_append_l _ (mem_data_append_l _
      (mem_data_append_r _
        (mem_dumpsItems ind (lvl + 1) (x :: xs) _ hmem hrec))))

/- ## C6: the persisted JSON output -/

/-- C6: whenever either workflow variant persists its formatted records, the
written file is encoded as UTF-8 and holds exactly
`json.dumps(records, indent=2, ensure_ascii=False)` — the pretty-printed
(2-space indented) JSON array of the formatted records — and every non-ASCII
character of a record's sentence occurs literally (unescaped) in that
output. -/
theorem c6_json_output :
    (∀ (env : EnvA) (p : String) (w w' : World),
        process_video env (some p) w = (.ok true, w') →
        ∃ recs, format_output env.transcription = .ok recs ∧
          w'.jsonFiles = w.jsonFiles ++
            [⟨p, json_dumps 2 (.pyList recs), "utf-8"⟩] ∧
          (∀ rec ∈ recs, ∀ s, sentenceOf rec = some s →
            ∀ c ∈ s.data, 128 ≤ c.toNat →
              c ∈ (json_dumps 2 (.pyList recs)).data)) ∧
    (∀ (env : EnvB) (cwd a f fmt : String) (w w' : World),
        process_video_with_audio_save env cwd a (some f) fmt w =
          (.ok true, w') →
        ∃ recs, format_output env.transcription = .ok recs ∧
          w'.jsonFiles = w.jsonFiles ++
            [⟨joinPath (joinPath cwd "result") (basename f),
              json_dumps 2 (.pyList recs), "utf-8"⟩] ∧
          (∀ rec ∈ recs, ∀ s, sentenceOf rec = some s →
            ∀ c ∈ s.data, 128 ≤ c.toNat →
              c ∈ (json_dumps 2 (.pyList recs)).data)) := by
  constructor
  · intro env p w w' h
    obtain ⟨d, recs, htr, hfo, hsome, -⟩ := procA_ok_inv h
    refine ⟨recs, by rw [htr, hfo], hsome p rfl, ?_⟩
    intro rec hrec s hs c hc hval
    exact mem_dumps_sentence 2 0 recs rec s hrec hs hc hval
  · intro env cwd a f fmt w w' h
    obtain ⟨-, d, recs, htr, hfo, hsome, -⟩ := procB_ok_inv h
    obtain ⟨hjson, -⟩ := hsome f rfl
    refine ⟨recs, by rw [htr, hfo], hjson, ?_⟩
    intro rec hrec s hs c hc hval
    exact mem_dumps_sentence 2 0 recs rec s hrec hs hc hval

/-- Witness for C6: a concrete successful variant-A run writing to
`out.json`. -/
theorem c6_json_output_witness :
    ∃ recs,
      format_output
          (EnvA.mk "/tmp/t1" false true (some "wav")
            (some [("segments", PyVal.pyList
              [Segment.toPy ⟨1, 2, " héllo "⟩])])).transcription =
        .ok recs ∧
      (process_video
          ⟨"/tmp/t1", false, true, some "wav",
           some [("segments", PyVal.pyList [Segment.toPy ⟨1, 2, " héllo "⟩])]⟩
          (some "out.json") World.empty).2.jsonFiles =
        World.empty.jsonFiles ++
          [⟨"out.json", json_dumps 2 (.pyList recs), "utf-8"⟩] ∧
      (∀ rec ∈ recs, ∀ s, sentenceOf rec = some s →
        ∀ c ∈ s.data, 128 ≤ c.toNat →
          c ∈ (json_dumps 2 (.pyList recs)).data) := by
  have hfst : (process_video
      ⟨"/tmp/t1", false, true, some "wav",
       some [("segments", PyVal.pyList [Segment.toPy ⟨1, 2, " héllo "⟩])]⟩
      (some "out.json") World.empty).1 = Except.ok true := rfl
  have h : process_video
      ⟨"/tmp/t1", false, true, some "wav",
       some [("segments", PyVal.pyList [Segment.toPy ⟨1, 2, " héllo "⟩])]⟩
      (some "out.json") World.empty =
      (Except.ok true,
        (process_video
          ⟨"/tmp/t1", false, true, some "wav",
           some [("segments", PyVal.pyList [Segment.toPy ⟨1, 2, " héllo "⟩])]⟩
          (some "out.json") World.empty).2) := by
    rw [← hfst]
  exact c6_json_output.1 _ "out.json" World.empty _ h
